import Mathlib

/-!
# Verification of the Discord-style message rendering service (`src/main.py`)

A shallow embedding of the rendering pipeline of `src/main.py`:
the `Message` data model with its `validate` and `get_color_rgb` methods,
the text layout engine `ImageGenerator._wrap_text`, the avatar resolver
`ImageGenerator._get_avatar`, the canvas compositor `ImageGenerator.generate`,
and the HTTP handler `generate_image`.

Python strings are modelled as Lean `String`; `str.split()` (split on runs of
whitespace, discarding empties) is modelled by a character-level tokenizer.
The font width function `draw.textlength` is an external resource and is taken
as a parameter `f : String → ℕ`.  PIL images are modelled by a record carrying
mode, dimensions, RGB pixels and an alpha plane; PIL's external raster
operations (`convert`, `resize`, PNG encoding) are modelled at the granularity
the layout logic observes (mode, dimensions, opacity, and a lossless,
dimension-carrying serialization).
-/

set_option maxHeartbeats 1000000
set_option linter.unusedVariables false

namespace DiscordAPI

/-! ## Configuration (`Config` in `src/main.py`, environment defaults) -/

namespace Config

/-- `MAX_MESSAGES = int(os.getenv('MAX_MESSAGES', 50))` (default). -/
def MAX_MESSAGES : ℕ := 50

/-- `MAX_MESSAGE_LENGTH = int(os.getenv('MAX_MESSAGE_LENGTH', 2000))` (default). -/
def MAX_MESSAGE_LENGTH : ℕ := 2000

/-- `FONT_SIZE = 14` -/
def FONT_SIZE : ℕ := 14

/-- `USERNAME_FONT_SIZE = 16` -/
def USERNAME_FONT_SIZE : ℕ := 16

/-- `TIMESTAMP_FONT_SIZE = 12` -/
def TIMESTAMP_FONT_SIZE : ℕ := 12

/-- `MESSAGE_PADDING = 20` -/
def MESSAGE_PADDING : ℕ := 20

/-- `AVATAR_SIZE = 40` -/
def AVATAR_SIZE : ℕ := 40

/-- `MESSAGE_SPACING = 16` -/
def MESSAGE_SPACING : ℕ := 16

/-- `MAX_WIDTH = 800` -/
def MAX_WIDTH : ℕ := 800

/-- `BACKGROUND_COLOR = (32, 34, 37)` -/
def BACKGROUND_COLOR : ℕ × ℕ × ℕ := (32, 34, 37)

/-- `TEXT_COLOR = (220, 221, 222)` -/
def TEXT_COLOR : ℕ × ℕ × ℕ := (220, 221, 222)

/-- `TIMESTAMP_COLOR = (114, 118, 125)` -/
def TIMESTAMP_COLOR : ℕ × ℕ × ℕ := (114, 118, 125)

end Config

/-! ## Python string splitting (`str.split()` with no argument) -/

/-- The ASCII whitespace characters recognized by Python's `str.split()`:
space, tab, newline, carriage return, vertical tab, form feed. -/
def pySpace (c : Char) : Bool :=
  c == ' ' || c == '\t' || c == '\n' || c == '\r' || c == '\x0b' || c == '\x0c'

/-- Character-level model of Python's `str.split()`: split on runs of
whitespace, discarding empty fragments.  A non-space character is glued onto
the token started by the following character when that one is not a space. -/
def tokenize : List Char → List (List Char)
  | [] => []
  | c :: cs =>
    if pySpace c then tokenize cs
    else
      match cs with
      | [] => [[c]]
      | d :: _ =>
        if pySpace d then [c] :: tokenize cs
        else
          match tokenize cs with
          | [] => [[c]]
          | t :: ts => (c :: t) :: ts

/-- `text.split()` from line 132 of `src/main.py`. -/
def pySplit (s : String) : List String :=
  (tokenize s.data).map String.mk

/-- `' '.join(ws)` (Python string join with a single space separator). -/
def joinSp : List String → String
  | [] => ""
  | [w] => w
  | w :: ws => w ++ " " ++ joinSp ws

/-- Joining display lines back into one text with newline separators
(the inverse direction used by the idempotence property). -/
def joinNL : List String → String
  | [] => ""
  | [l] => l
  | l :: ls => l ++ "\n" ++ joinNL ls

/-! ## The text layout engine (`ImageGenerator._wrap_text`, lines 130-150) -/

/-- One iteration of the `for word in words` loop of `_wrap_text`:
state is `(lines, current_line)`; `test_line = ' '.join(current_line + [word])`
is measured by the font width function `f` and compared with `maxW`. -/
def wrapStep (f : String → ℕ) (maxW : ℕ) (st : List String × List String)
    (word : String) : List String × List String :=
  let testLine := joinSp (st.2 ++ [word])
  if f testLine ≤ maxW then (st.1, st.2 ++ [word])
  else if st.2.isEmpty then (st.1, [word])
  else (st.1 ++ [joinSp st.2], [word])

/-- The loop of `_wrap_text` run on an explicit word list, including the final
`if current_line: lines.append(' '.join(current_line))`. -/
def wrapFromWords (f : String → ℕ) (maxW : ℕ) (words : List String) : List String :=
  let st := words.foldl (wrapStep f maxW) ([], [])
  if st.2.isEmpty then st.1 else st.1 ++ [joinSp st.2]

/-- `ImageGenerator._wrap_text(text, draw, font, max_width)`:
`words = text.split()` followed by the greedy wrap loop.  The font width
function `draw.textlength(·, font)` is the parameter `f`. -/
def wrap_text (f : String → ℕ) (maxW : ℕ) (text : String) : List String :=
  wrapFromWords f maxW (pySplit text)

/-- Proof companion of `wrapStep` that keeps each line as its word list
instead of joining it, so that the word content of every produced line is
visible to the proofs. -/
def groupStep (f : String → ℕ) (maxW : ℕ) (st : List (List String) × List String)
    (word : String) : List (List String) × List String :=
  let testLine := joinSp (st.2 ++ [word])
  if f testLine ≤ maxW then (st.1, st.2 ++ [word])
  else if st.2.isEmpty then (st.1, [word])
  else (st.1 ++ [st.2], [word])

/-- Proof companion of `wrapFromWords` returning the lines as word lists. -/
def wrapGroups (f : String → ℕ) (maxW : ℕ) (words : List String) : List (List String) :=
  let st := words.foldl (groupStep f maxW) ([], [])
  if st.2.isEmpty then st.1 else st.1 ++ [st.2]

/-! ### Character-level joins and their inversion by the tokenizer -/

/-- Character-level image of `' '.join`. -/
def joinChSp : List (List Char) → List Char
  | [] => []
  | [w] => w
  | w :: ws => w ++ ' ' :: joinChSp ws

/-- Character-level image of joining lines with a newline. -/
def joinChNL : List (List Char) → List Char
  | [] => []
  | [w] => w
  | w :: ws => w ++ '\n' :: joinChNL ws

/-- A well-formed token: nonempty and free of whitespace characters
(exactly what `tokenize` produces). -/
def goodTok (t : List Char) : Prop := t ≠ [] ∧ ∀ c ∈ t, pySpace c = false


/-! ## The `Message` dataclass (lines 52-70) -/

/-- The `Message` dataclass of `src/main.py`. -/
structure Message where
  username : String
  message : String
  color : String
  timestamp : String
  avatar_url : String := ""
deriving Repr, DecidableEq

/-- `self.color.startswith('#')`: the string begins with the character `'#'`. -/
def pyStartsWithHash (s : String) : Bool :=
  match s.data with
  | [] => false
  | c :: _ => c == '#'

/-- `Message.validate` (lines 60-66).  The Python method mutates `self` and
may raise `ValueError`; it is modelled as returning the final state of the
message together with the raised error, if any.  The two checks precede the
single mutation (prepending `'#'` to a color that lacks it), in source order. -/
def Message.validate (m : Message) : Message × Option String :=
  if m.message.length > Config.MAX_MESSAGE_LENGTH then
    (m, some "Message exceeds maximum length")
  else if m.username = "" then
    (m, some "Username cannot be empty")
  else if ¬ pyStartsWithHash m.color then
    ({ m with color := "#" ++ m.color }, none)
  else
    (m, none)

/-- One hexadecimal digit, as accepted by Python's `int(_, 16)`. -/
def hexDigit (c : Char) : Option ℕ :=
  if '0' ≤ c ∧ c ≤ '9' then some (c.toNat - 48)
  else if 'a' ≤ c ∧ c ≤ 'f' then some (c.toNat - 87)
  else if 'A' ≤ c ∧ c ≤ 'F' then some (c.toNat - 55)
  else none

/-- Python's `int(s, 16)` on the two-character slices taken by
`get_color_rgb`: fails on an empty string or on any non-hex-digit character
(raising `ValueError` in Python, modelled as `none`). -/
def pyIntHex : List Char → Option ℕ
  | [] => none
  | cs =>
    cs.foldl
      (fun acc c =>
        match acc, hexDigit c with
        | some a, some d => some (16 * a + d)
        | _, _ => none)
      (some 0)

/-- Python's slice `l[i:i+2]`. -/
def pySlice2 (l : List Char) (i : ℕ) : List Char := (l.drop i).take 2

/-- `Message.get_color_rgb` (lines 68-70):
`color = self.color.lstrip('#')` then
`tuple(int(color[i:i+2], 16) for i in (0, 2, 4))`.
A slice that is empty or contains a non-hex character makes `int` raise
`ValueError`, modelled as `none`. -/
def Message.get_color_rgb (m : Message) : Option (ℕ × ℕ × ℕ) :=
  let color := m.color.data.dropWhile (fun c => c == '#')
  match pyIntHex (pySlice2 color 0), pyIntHex (pySlice2 color 2),
      pyIntHex (pySlice2 color 4) with
  | some r, some g, some b => some (r, g, b)
  | _, _, _ => none

/-! ## PIL image model

PIL rasters are modelled by mode, dimensions, an RGB pixel map and an alpha
plane.  An image in `RGB` mode has no transparency: its effective alpha is
255 everywhere, which is what `alphaAt` returns for it. -/

/-- The two PIL pixel modes relevant to this program. -/
inductive PILMode where
  | RGB
  | RGBA
deriving Repr, DecidableEq

/-- Model of a PIL `Image`. -/
structure PILImage where
  mode : PILMode
  width : ℕ
  height : ℕ
  px : ℕ × ℕ → ℕ × ℕ × ℕ
  alphaFn : ℕ × ℕ → ℕ

/-- The effective alpha of a pixel: an `RGB`-mode image is fully opaque. -/
def PILImage.alphaAt (img : PILImage) (p : ℕ × ℕ) : ℕ :=
  match img.mode with
  | PILMode.RGB => 255
  | PILMode.RGBA => img.alphaFn p

/-- `Image.new('RGB', size, color)`. -/
def imageNew (size : ℕ × ℕ) (color : ℕ × ℕ × ℕ) : PILImage :=
  { mode := PILMode.RGB, width := size.1, height := size.2,
    px := fun _ => color, alphaFn := fun _ => 255 }

/-- `img.convert('RGB')`: the mode becomes `RGB` (dropping any alpha plane);
the RGB channels are kept. -/
def PILImage.convertRGB (img : PILImage) : PILImage :=
  { img with mode := PILMode.RGB }

/-- `img.resize(size, Image.Resampling.LANCZOS)`: the result has the target
dimensions and the source mode.  The external Lanczos filter arithmetic is
abstracted by coordinate resampling; the layout logic only observes the mode
and the dimensions of the result. -/
def PILImage.resizeLanczos (img : PILImage) (size : ℕ × ℕ) : PILImage :=
  { mode := img.mode, width := size.1, height := size.2,
    px := fun p => img.px (p.1 * img.width / size.1, p.2 * img.height / size.2),
    alphaFn := fun p => img.alphaFn (p.1 * img.width / size.1, p.2 * img.height / size.2) }

/-! ## The avatar resolver (`ImageGenerator._get_avatar`, lines 110-128) -/

/-- `ImageGenerator._create_default_avatar` (lines 92-95):
`Image.new('RGB', (AVATAR_SIZE, AVATAR_SIZE), (102, 102, 102))`. -/
def default_avatar : PILImage :=
  imageNew (Config.AVATAR_SIZE, Config.AVATAR_SIZE) (102, 102, 102)

/-- Outcome of the outbound HTTP request `session.get(avatar_url)`: either an
exception (connection error, timeout, ...) or a response with a status code
and a body. -/
inductive FetchOutcome where
  | raises
  | response (status : ℕ) (body : List ℕ)

/-- The external collaborators of the avatar resolver: the HTTP client and the
PIL decoder `Image.open` (whose failure to decode raises, modelled as `none`). -/
structure AvatarEnv where
  fetch : String → FetchOutcome
  decode : List ℕ → Option PILImage

/-- The `try` body of `_get_avatar` (lines 115-125): fetch, and on HTTP 200
decode, convert to RGB and Lanczos-resize to the avatar tile size; on any
other status return the default avatar.  Exceptions escape as `Except.error`. -/
def get_avatar_body (env : AvatarEnv) (default : PILImage) (avatar_url : String) :
    Except String PILImage :=
  match env.fetch avatar_url with
  | FetchOutcome.raises => Except.error "fetch raised"
  | FetchOutcome.response status data =>
    if status = 200 then
      match env.decode data with
      | none => Except.error "Image.open raised"
      | some avatar =>
        Except.ok ((avatar.convertRGB).resizeLanczos
          (Config.AVATAR_SIZE, Config.AVATAR_SIZE))
    else
      Except.ok default

/-- `ImageGenerator._get_avatar` (lines 110-128): empty URL returns the
default avatar immediately; otherwise the `try` body runs and `except
Exception` turns any failure into the default avatar.  The function is total:
no exception ever escapes to the caller. -/
def get_avatar (env : AvatarEnv) (default : PILImage) (avatar_url : String) : PILImage :=
  if avatar_url = "" then default
  else
    match get_avatar_body env default avatar_url with
    | Except.ok img => img
    | Except.error _ => default

/-- Decidable description of the failure cases of the avatar resolver: empty
URL, raising fetch, non-200 status, or undecodable body. -/
def avatarFetchFails (env : AvatarEnv) (url : String) : Bool :=
  url = "" ||
    match env.fetch url with
    | FetchOutcome.raises => true
    | FetchOutcome.response status data =>
      status ≠ 200 || (env.decode data).isNone

/-! ## The canvas compositor (`ImageGenerator.generate`, lines 152-239)

Glyph rasterization and pixel blitting are performed by PIL; the layout logic
of `generate` is modelled by the canvas it allocates and the ordered log of
draw operations it issues (avatar paste and text draws, with their exact
positions, fonts and fill colors). -/

/-- The three fonts loaded by `ImageGenerator.__init__`. -/
inductive FontKind where
  | body
  | username
  | timestamp
deriving Repr, DecidableEq

/-- One drawing operation issued during the draw pass. -/
inductive DrawOp where
  | paste (avatar : PILImage) (pos : ℕ × ℕ)
  | text (pos : ℕ × ℕ) (s : String) (font : FontKind) (fill : ℕ × ℕ × ℕ)

/-- Is this operation an avatar paste (`img.paste(avatar, ...)`, line 194)? -/
def DrawOp.isPaste : DrawOp → Bool
  | DrawOp.paste _ _ => true
  | _ => false

/-- Is this operation the username header text draw (line 198, which uses
`self.username_font`)? -/
def DrawOp.isUsernameText : DrawOp → Bool
  | DrawOp.text _ _ FontKind.username _ => true
  | _ => false

/-- The wrap width passed to `_wrap_text` by `generate` (lines 169 and 219):
`MAX_WIDTH - MESSAGE_PADDING * 2 - AVATAR_SIZE - MESSAGE_SPACING`. -/
def wrapWidth : ℕ :=
  Config.MAX_WIDTH - Config.MESSAGE_PADDING * 2 - Config.AVATAR_SIZE
    - Config.MESSAGE_SPACING

/-- The per-message height formula of the measure pass (lines 172-176):
`USERNAME_FONT_SIZE + len(wrapped_lines) * (FONT_SIZE + 4) + MESSAGE_SPACING`. -/
def messageHeight (fBody : String → ℕ) (m : Message) : ℕ :=
  Config.USERNAME_FONT_SIZE
    + (wrap_text fBody wrapWidth m.message).length * (Config.FONT_SIZE + 4)
    + Config.MESSAGE_SPACING

/-- The body text loop of `generate` (lines 223-230): draw each wrapped line
at `username_x`, advancing `text_y` by `FONT_SIZE + 4` per line. -/
def bodyLineOps (username_x : ℕ) : List String → ℕ → List DrawOp
  | [], _ => []
  | line :: rest, text_y =>
    DrawOp.text (username_x, text_y) line FontKind.body Config.TEXT_COLOR
      :: bodyLineOps username_x rest (text_y + (Config.FONT_SIZE + 4))

/-- The body of the draw loop of `generate` for one message (lines 189-230):
fetch the avatar, paste it at the left margin, draw the username in the
message's color (this is the point where `get_color_rgb` may raise
`ValueError`), draw the timestamp to its right, then draw the wrapped body
lines.  Every message draws its avatar and header unconditionally — there is
no author-grouping state. -/
def drawMessage (env : AvatarEnv) (fBody fUser fTs : String → ℕ) (m : Message)
    (current_y : ℕ) : Except String (List DrawOp) :=
  let avatar := get_avatar env default_avatar m.avatar_url
  let username_x := Config.MESSAGE_PADDING + Config.AVATAR_SIZE + Config.MESSAGE_SPACING
  match m.get_color_rgb with
  | none => Except.error "invalid literal for int() with base 16"
  | some rgb =>
    let headOps := [
      DrawOp.paste avatar (Config.MESSAGE_PADDING, current_y),
      DrawOp.text (username_x, current_y) m.username FontKind.username rgb,
      DrawOp.text (username_x + fUser m.username + 10, current_y + 4) m.timestamp
        FontKind.timestamp Config.TIMESTAMP_COLOR]
    let wrapped := wrap_text fBody wrapWidth m.message
    Except.ok (headOps
      ++ bodyLineOps username_x wrapped (current_y + Config.USERNAME_FONT_SIZE + 4))

/-- The draw loop of `generate` (lines 189-232): after each message,
`current_y += message_heights[i]`. -/
def drawLoop (env : AvatarEnv) (fBody fUser fTs : String → ℕ) :
    List Message → ℕ → Except String (List DrawOp)
  | [], _ => Except.ok []
  | m :: rest, current_y =>
    match drawMessage env fBody fUser fTs m current_y with
    | Except.error e => Except.error e
    | Except.ok ops =>
      match drawLoop env fBody fUser fTs rest (current_y + messageHeight fBody m) with
      | Except.error e => Except.error e
      | Except.ok more => Except.ok (ops ++ more)

/-- The result of a successful `generate` call: the canvas allocated by the
measure pass and the draw-operation log of the draw pass. -/
structure Render where
  canvas : PILImage
  ops : List DrawOp

/-- `ImageGenerator.generate(messages)` (lines 152-239).  The measure pass
computes `total_height = MESSAGE_PADDING + Σ message_heights`, the canvas is
allocated once at `(MAX_WIDTH, total_height)` filled with `BACKGROUND_COLOR`,
and the draw pass runs; any exception (in this model: a `ValueError` from
`get_color_rgb`) propagates to the caller.  `fBody`, `fUser` and `fTs` are
`draw.textlength` for the body, username and timestamp fonts. -/
def generate (env : AvatarEnv) (fBody fUser fTs : String → ℕ)
    (messages : List Message) : Except String Render :=
  let total_height := Config.MESSAGE_PADDING + (messages.map (messageHeight fBody)).sum
  let canvas := imageNew (Config.MAX_WIDTH, total_height) Config.BACKGROUND_COLOR
  match drawLoop env fBody fUser fTs messages Config.MESSAGE_PADDING with
  | Except.error e => Except.error e
  | Except.ok ops => Except.ok { canvas := canvas, ops := ops }

/-- `img.save(img_byte_arr, format='PNG', optimize=True)` followed by
`getvalue()` (lines 235-239).  Modelled from the spec: PNG encoding is an
external lossless serialization, deterministic in the pixels and carrying the
raster dimensions; it is modelled as a dimension header followed by the raw
RGB pixel dump. -/
def encodeImg (img : PILImage) : List ℕ :=
  img.width % 256 :: img.width / 256 % 256 :: img.height % 256 :: img.height / 256 % 256
    :: (List.range img.height).flatMap
        (fun y => (List.range img.width).flatMap
          (fun x =>
            let c := img.px (x, y)
            [c.1, c.2.1, c.2.2]))

/-! ## The HTTP handler `generate_image` (lines 287-324) -/

/-- A raw message record from the request JSON: `msg_data['username']` and
`msg_data['message']` raise `KeyError` when missing (`none`); the other three
fields use `.get` defaults. -/
structure RawMsg where
  username : Option String
  message : Option String
  color : Option String := none
  timestamp : Option String := none
  avatar_url : Option String := none

/-- The responses `generate_image` can produce: a 400 with an error message, a
500 with an error message, or the PNG bytes. -/
inductive HandlerResult where
  | badRequest (msg : String)
  | serverError (msg : String)
  | okImage (bytes : List ℕ)

/-- Construction and validation of one `Message` from a raw record
(lines 300-309): missing `username`/`message` raise `KeyError`; defaults
`'#ffffff'`, the current time (`now`) and `''` fill the optional fields; then
`message.validate()` runs, whose `ValueError` is also caught by the handler. -/
def buildMessage (now : String) (raw : RawMsg) : Except String Message :=
  match raw.username, raw.message with
  | some u, some body =>
    let m : Message :=
      { username := u, message := body, color := raw.color.getD "#ffffff",
        timestamp := raw.timestamp.getD now, avatar_url := raw.avatar_url.getD "" }
    match m.validate with
    | (_, some e) => Except.error e
    | (m', none) => Except.ok m'
  | _, _ => Except.error "KeyError"

/-- The message-construction loop of `generate_image` (lines 298-311); the
first invalid record aborts the whole request. -/
def buildMessages (now : String) : List RawMsg → Except String (List Message)
  | [] => Except.ok []
  | r :: rs =>
    match buildMessage now r with
    | Except.error e => Except.error e
    | Except.ok m =>
      match buildMessages now rs with
      | Except.error e => Except.error e
      | Except.ok ms => Except.ok (m :: ms)

/-- The `/generate` handler (lines 287-324).  `data = none` models a request
without a JSON body or without a `'messages'` key.  The message-count check
runs first, before any per-message construction or validation and before
`generate` (which is where the canvas is allocated). -/
def generate_image (env : AvatarEnv) (fBody fUser fTs : String → ℕ) (now : String)
    (data : Option (List RawMsg)) : HandlerResult :=
  match data with
  | none => HandlerResult.badRequest "Invalid request data"
  | some rawMsgs =>
    if rawMsgs.length > Config.MAX_MESSAGES then
      HandlerResult.badRequest
        ("Too many messages. Maximum allowed: " ++ toString Config.MAX_MESSAGES)
    else
      match buildMessages now rawMsgs with
      | Except.error e => HandlerResult.badRequest ("Invalid message data: " ++ e)
      | Except.ok messages =>
        match generate env fBody fUser fTs messages with
        | Except.error e =>
          HandlerResult.serverError ("Failed to generate image: " ++ e)
        | Except.ok r => HandlerResult.okImage (encodeImg r.canvas)

/-! ## Test fixtures (concrete instantiations used by witnesses and
counterexamples) -/

/-- An avatar environment whose fetch always raises and whose decoder always
fails — the fully-offline worst case. -/
def envNone : AvatarEnv :=
  { fetch := fun _ => FetchOutcome.raises, decode := fun _ => none }

/-- A message that is valid in every respect. -/
def msGood : Message :=
  { username := "Alice", message := "hi there", color := "#ff0000",
    timestamp := "12:00", avatar_url := "" }

/-- A message that passes `validate` (non-empty username, short body) but
whose color is not parseable hex, so `get_color_rgb` raises. -/
def msBadColor : Message :=
  { username := "Alice", message := "hi", color := "#gggggg",
    timestamp := "12:00", avatar_url := "" }

/-- Two consecutive messages by the same author. -/
def msgsSameUser : List Message :=
  [{ username := "A", message := "one", color := "#ffffff", timestamp := "t",
     avatar_url := "" },
   { username := "A", message := "two", color := "#ffffff", timestamp := "t",
     avatar_url := "" }]

/-- A message with an empty body. -/
def msEmpty : Message :=
  { username := "A", message := "", color := "#ffffff", timestamp := "t",
    avatar_url := "" }

/-- A message that makes `validate` raise (empty username) while its color
lacks the leading `'#'`. -/
def msRaise : Message :=
  { username := "", message := "x", color := "fff", timestamp := "t",
    avatar_url := "" }

/-- A raw request record missing both required fields. -/
def rawEmpty : RawMsg := { username := none, message := none }

/-- A successfully decoded avatar source image that is not square (100×50). -/
def imgNonSquare : PILImage :=
  { mode := PILMode.RGB, width := 100, height := 50,
    px := fun _ => (1, 2, 3), alphaFn := fun _ => 255 }

/-- An avatar environment that successfully serves `imgNonSquare`. -/
def envSquareTest : AvatarEnv :=
  { fetch := fun _ => FetchOutcome.response 200 [],
    decode := fun _ => some imgNonSquare }

/-- The avatar tile the code produces for the non-square source. -/
def tileNonSquare : PILImage :=
  get_avatar envSquareTest default_avatar "http://cdn.example.com/av.png"

/-- The property claimed of the avatar tile: a circular alpha mask of radius
`size/2` centered in the tile, i.e. every pixel whose center lies outside the
circle is fully transparent. -/
def maskedOutsideCircle (img : PILImage) (size : ℕ) : Prop :=
  ∀ x y : ℕ, x < size → y < size →
    ((2 * x + 1 : ℤ) - size) ^ 2 + ((2 * y + 1 : ℤ) - size) ^ 2 > (size : ℤ) ^ 2 →
    img.alphaAt (x, y) = 0

/-- Observation function for a render outcome: `none` when `generate` raised,
otherwise the number of avatar-paste operations and of username text draws. -/
def renderCounts (e : Except String Render) : Option (ℕ × ℕ) :=
  match e with
  | Except.error _ => none
  | Except.ok r => some (r.ops.countP DrawOp.isPaste, r.ops.countP DrawOp.isUsernameText)


/-! ### Lemmas relating `wrap_text` to its word-list companion -/

theorem foldl_wrapStep_eq_groupStep (f : String → ℕ) (maxW : ℕ) :
    ∀ (words : List String) (gs : List (List String)) (cur : List String),
    words.foldl (wrapStep f maxW) (gs.map joinSp, cur) =
      ((words.foldl (groupStep f maxW) (gs, cur)).1.map joinSp,
       (words.foldl (groupStep f maxW) (gs, cur)).2) := by
  intro words
  induction words with
  | nil => intro gs cur; rfl
  | cons w ws ih =>
    intro gs cur
    simp only [List.foldl_cons]
    by_cases h1 : f (joinSp (cur ++ [w])) ≤ maxW
    · have e1 : wrapStep f maxW (gs.map joinSp, cur) w = (gs.map joinSp, cur ++ [w]) := by
        simp [wrapStep, h1]
      have e2 : groupStep f maxW (gs, cur) w = (gs, cur ++ [w]) := by
        simp [groupStep, h1]
      rw [e1, e2, ih]
    · by_cases h2 : cur.isEmpty
      · have e1 : wrapStep f maxW (gs.map joinSp, cur) w = (gs.map joinSp, [w]) := by
          simp [wrapStep, h1, h2]
        have e2 : groupStep f maxW (gs, cur) w = (gs, [w]) := by
          simp [groupStep, h1, h2]
        rw [e1, e2, ih]
      · have e1 : wrapStep f maxW (gs.map joinSp, cur) w
            = ((gs ++ [cur]).map joinSp, [w]) := by
          simp [wrapStep, h1, h2]
        have e2 : groupStep f maxW (gs, cur) w = (gs ++ [cur], [w]) := by
          simp [groupStep, h1, h2]
        rw [e1, e2, ih]

theorem wrapFromWords_eq_groups (f : String → ℕ) (maxW : ℕ) (words : List String) :
    wrapFromWords f maxW words = (wrapGroups f maxW words).map joinSp := by
  unfold wrapFromWords wrapGroups
  have h := foldl_wrapStep_eq_groupStep f maxW words [] []
  simp only [List.map_nil] at h
  rw [h]
  by_cases h2 : (words.foldl (groupStep f maxW) ([], [])).2.isEmpty
  · simp [h2]
  · simp [h2]

theorem foldl_groupStep_flatten (f : String → ℕ) (maxW : ℕ) :
    ∀ (words : List String) (gs : List (List String)) (cur : List String),
    (words.foldl (groupStep f maxW) (gs, cur)).1.flatten
        ++ (words.foldl (groupStep f maxW) (gs, cur)).2
      = gs.flatten ++ cur ++ words := by
  intro words
  induction words with
  | nil => intro gs cur; simp
  | cons w ws ih =>
    intro gs cur
    simp only [List.foldl_cons]
    by_cases h1 : f (joinSp (cur ++ [w])) ≤ maxW
    · have e : groupStep f maxW (gs, cur) w = (gs, cur ++ [w]) := by
        simp [groupStep, h1]
      rw [e, ih]; simp
    · by_cases h2 : cur.isEmpty
      · have hc : cur = [] := List.isEmpty_iff.mp h2
        have e : groupStep f maxW (gs, cur) w = (gs, [w]) := by
          simp [groupStep, h1, h2]
        rw [e, ih, hc]; simp
      · have e : groupStep f maxW (gs, cur) w = (gs ++ [cur], [w]) := by
          simp [groupStep, h1, h2]
        rw [e, ih]; simp

theorem wrapGroups_flatten (f : String → ℕ) (maxW : ℕ) (words : List String) :
    (wrapGroups f maxW words).flatten = words := by
  unfold wrapGroups
  have h := foldl_groupStep_flatten f maxW words [] []
  simp only [List.flatten_nil, List.nil_append] at h
  by_cases h2 : (words.foldl (groupStep f maxW) ([], [])).2.isEmpty
  · have hc : (words.foldl (groupStep f maxW) ([], [])).2 = [] := List.isEmpty_iff.mp h2
    rw [hc, List.append_nil] at h
    simp [h2, h]
  · rw [if_neg h2, List.flatten_append]
    simpa using h

theorem foldl_groupStep_ne_nil (f : String → ℕ) (maxW : ℕ) :
    ∀ (words : List String) (gs : List (List String)) (cur : List String),
    (∀ g ∈ gs, g ≠ []) →
    ∀ g ∈ (words.foldl (groupStep f maxW) (gs, cur)).1, g ≠ [] := by
  intro words
  induction words with
  | nil => intro gs cur h; exact h
  | cons w ws ih =>
    intro gs cur h
    simp only [List.foldl_cons]
    by_cases h1 : f (joinSp (cur ++ [w])) ≤ maxW
    · have e : groupStep f maxW (gs, cur) w = (gs, cur ++ [w]) := by
        simp [groupStep, h1]
      rw [e]; exact ih gs (cur ++ [w]) h
    · by_cases h2 : cur.isEmpty
      · have e : groupStep f maxW (gs, cur) w = (gs, [w]) := by
          simp [groupStep, h1, h2]
        rw [e]; exact ih gs [w] h
      · have e : groupStep f maxW (gs, cur) w = (gs ++ [cur], [w]) := by
          simp [groupStep, h1, h2]
        rw [e]
        refine ih (gs ++ [cur]) [w] ?_
        intro g hg
        rcases List.mem_append.mp hg with hg | hg
        · exact h g hg
        · rcases List.mem_singleton.mp hg with rfl
          intro hnil
          rw [hnil] at h2
          exact h2 rfl

theorem wrapGroups_ne_nil (f : String → ℕ) (maxW : ℕ) (words : List String) :
    ∀ g ∈ wrapGroups f maxW words, g ≠ [] := by
  unfold wrapGroups
  by_cases h2 : (words.foldl (groupStep f maxW) ([], [])).2.isEmpty
  · rw [if_pos h2]
    exact foldl_groupStep_ne_nil f maxW words [] [] (by simp)
  · rw [if_neg h2]
    intro g hg
    rcases List.mem_append.mp hg with hg | hg
    · exact foldl_groupStep_ne_nil f maxW words [] [] (by simp) g hg
    · rcases List.mem_singleton.mp hg with rfl
      intro hnil
      rw [hnil] at h2
      exact h2 rfl

/-! ### Lemmas about the tokenizer -/

theorem tokenize_cons_space (c : Char) (cs : List Char) (hc : pySpace c = true) :
    tokenize (c :: cs) = tokenize cs := by
  simp [tokenize, hc]

theorem tokenize_one (c : Char) (hc : pySpace c = false) :
    tokenize [c] = [[c]] := by
  simp [tokenize, hc]

theorem tokenize_cons_nonspace_space (c d : Char) (ds : List Char)
    (hc : pySpace c = false) (hd : pySpace d = true) :
    tokenize (c :: d :: ds) = [c] :: tokenize (d :: ds) := by
  conv_lhs => rw [tokenize]
  simp [hc, hd]

theorem tokenize_cons_nonspace_nonspace (c d : Char) (ds : List Char)
    (hc : pySpace c = false) (hd : pySpace d = false) :
    tokenize (c :: d :: ds) =
      match tokenize (d :: ds) with
      | [] => [[c]]
      | t :: ts => (c :: t) :: ts := by
  conv_lhs => rw [tokenize]
  simp [hc, hd]

theorem tokenize_good : ∀ l : List Char, ∀ t ∈ tokenize l,
    t ≠ [] ∧ ∀ c ∈ t, pySpace c = false := by
  intro l
  induction l with
  | nil => intro t ht; simp [tokenize] at ht
  | cons c cs ih =>
    intro t ht
    cases hc : pySpace c with
    | true =>
      rw [tokenize_cons_space c cs hc] at ht
      exact ih t ht
    | false =>
      cases cs with
      | nil =>
        rw [tokenize_one c hc] at ht
        rcases List.mem_singleton.mp ht with rfl
        exact ⟨by simp, by simp [hc]⟩
      | cons d ds =>
        cases hd : pySpace d with
        | true =>
          rw [tokenize_cons_nonspace_space c d ds hc hd] at ht
          rcases List.mem_cons.mp ht with rfl | ht
          · exact ⟨by simp, by simp [hc]⟩
          · exact ih t ht
        | false =>
          cases htok : tokenize (d :: ds) with
          | nil =>
            have e : tokenize (c :: d :: ds) = [[c]] := by
              rw [tokenize_cons_nonspace_nonspace c d ds hc hd, htok]
            rw [e] at ht
            rcases List.mem_singleton.mp ht with rfl
            exact ⟨by simp, by simp [hc]⟩
          | cons t0 ts =>
            have e : tokenize (c :: d :: ds) = (c :: t0) :: ts := by
              rw [tokenize_cons_nonspace_nonspace c d ds hc hd, htok]
            rw [e] at ht
            rcases List.mem_cons.mp ht with rfl | ht
            · have h0 := ih t0 (by rw [htok]; exact List.mem_cons_self t0 ts)
              refine ⟨by simp, ?_⟩
              intro x hx
              rcases List.mem_cons.mp hx with rfl | hx
              · exact hc
              · exact h0.2 x hx
            · exact ih t (by rw [htok]; exact List.mem_cons_of_mem t0 ht)

theorem tokenize_single : ∀ w : List Char, w ≠ [] → (∀ c ∈ w, pySpace c = false) →
    tokenize w = [w] := by
  intro w
  induction w with
  | nil => intro h _; exact absurd rfl h
  | cons c cs ih =>
    intro _ hns
    have hc : pySpace c = false := hns c (by simp)
    cases cs with
    | nil => exact tokenize_one c hc
    | cons d ds =>
      have hd : pySpace d = false := hns d (by simp)
      have ihe : tokenize (d :: ds) = [d :: ds] :=
        ih (by simp) (fun x hx => hns x (List.mem_cons_of_mem c hx))
      rw [tokenize_cons_nonspace_nonspace c d ds hc hd, ihe]

theorem tokenize_word_append : ∀ w : List Char, w ≠ [] → (∀ c ∈ w, pySpace c = false) →
    ∀ s : Char, pySpace s = true → ∀ rest : List Char,
    tokenize (w ++ s :: rest) = w :: tokenize (s :: rest) := by
  intro w
  induction w with
  | nil => intro h _; exact absurd rfl h
  | cons c cs ih =>
    intro _ hns s hs rest
    have hc : pySpace c = false := hns c (by simp)
    cases cs with
    | nil =>
      show tokenize (c :: s :: rest) = [c] :: tokenize (s :: rest)
      exact tokenize_cons_nonspace_space c s rest hc hs
    | cons d ds =>
      have hd : pySpace d = false := hns d (by simp)
      have ihe := ih (by simp) (fun x hx => hns x (List.mem_cons_of_mem c hx)) s hs rest
      show tokenize (c :: ((d :: ds) ++ s :: rest)) = (c :: d :: ds) :: tokenize (s :: rest)
      rw [List.cons_append] at ihe ⊢
      rw [tokenize_cons_nonspace_nonspace c d _ hc hd, ihe]

theorem tokenize_joinChSp_append (g : List (List Char)) (hg : g ≠ [])
    (hts : ∀ t ∈ g, goodTok t) (s : Char) (hs : pySpace s = true) (rest : List Char) :
    tokenize (joinChSp g ++ s :: rest) = g ++ tokenize (s :: rest) := by
  induction g with
  | nil => exact absurd rfl hg
  | cons w g' ih =>
    rcases hts w (by simp) with ⟨hw, hwns⟩
    cases g' with
    | nil =>
      show tokenize (w ++ s :: rest) = [w] ++ tokenize (s :: rest)
      rw [tokenize_word_append w hw hwns s hs rest]
      rfl
    | cons g0 g'' =>
      have e : joinChSp (w :: g0 :: g'') = w ++ ' ' :: joinChSp (g0 :: g'') := rfl
      rw [e, List.append_assoc, List.cons_append,
        tokenize_word_append w hw hwns ' ' rfl _,
        tokenize_cons_space ' ' _ rfl,
        ih (by simp) (fun t ht => hts t (List.mem_cons_of_mem w ht))]
      rfl

theorem tokenize_joinChSp (g : List (List Char)) (hg : g ≠ [])
    (hts : ∀ t ∈ g, goodTok t) :
    tokenize (joinChSp g) = g := by
  induction g with
  | nil => exact absurd rfl hg
  | cons w g' ih =>
    rcases hts w (by simp) with ⟨hw, hwns⟩
    cases g' with
    | nil => exact tokenize_single w hw hwns
    | cons g0 g'' =>
      have e : joinChSp (w :: g0 :: g'') = w ++ ' ' :: joinChSp (g0 :: g'') := rfl
      rw [e, tokenize_word_append w hw hwns ' ' rfl _,
        tokenize_cons_space ' ' _ rfl,
        ih (by simp) (fun t ht => hts t (List.mem_cons_of_mem w ht))]

theorem tokenize_joinChNL (gss : List (List (List Char)))
    (hne : ∀ g ∈ gss, g ≠ []) (hts : ∀ g ∈ gss, ∀ t ∈ g, goodTok t) :
    tokenize (joinChNL (gss.map joinChSp)) = gss.flatten := by
  induction gss with
  | nil => rfl
  | cons g gss' ih =>
    cases gss' with
    | nil =>
      show tokenize (joinChNL [joinChSp g]) = (g ++ [].flatten : List (List Char))
      have e : joinChNL [joinChSp g] = joinChSp g := rfl
      rw [e, tokenize_joinChSp g (hne g (by simp)) (hts g (by simp))]
      simp
    | cons g1 gss'' =>
      have e : joinChNL ((g :: g1 :: gss'').map joinChSp)
          = joinChSp g ++ '\n' :: joinChNL ((g1 :: gss'').map joinChSp) := rfl
      rw [e, tokenize_joinChSp_append g (hne g (by simp)) (hts g (by simp)) '\n' rfl _,
        tokenize_cons_space '\n' _ rfl,
        ih (fun x hx => hne x (List.mem_cons_of_mem g hx))
           (fun x hx => hts x (List.mem_cons_of_mem g hx))]
      rfl

/-! ### Lifting the character-level facts to `String` -/

theorem strMk_data (s : String) : String.mk s.data = s := by
  cases s
  rfl

theorem strData_append (s t : String) : (s ++ t).data = s.data ++ t.data := by
  cases s
  cases t
  rfl

theorem joinSp_data (ws : List String) :
    (joinSp ws).data = joinChSp (ws.map String.data) := by
  induction ws with
  | nil => rfl
  | cons w ws ih =>
    cases ws with
    | nil => rfl
    | cons w' ws' =>
      show (w ++ " " ++ joinSp (w' :: ws')).data
          = w.data ++ ' ' :: joinChSp ((w' :: ws').map String.data)
      rw [strData_append, strData_append, ih]
      have hsp : (" " : String).data = [' '] := rfl
      rw [hsp, List.append_assoc]
      rfl

theorem joinNL_data (ls : List String) :
    (joinNL ls).data = joinChNL (ls.map String.data) := by
  induction ls with
  | nil => rfl
  | cons l ls ih =>
    cases ls with
    | nil => rfl
    | cons l' ls' =>
      show (l ++ "\n" ++ joinNL (l' :: ls')).data
          = l.data ++ '\n' :: joinChNL ((l' :: ls').map String.data)
      rw [strData_append, strData_append, ih]
      have hnl : ("\n" : String).data = ['\n'] := rfl
      rw [hnl, List.append_assoc]
      rfl

theorem pySplit_good (s : String) : ∀ w ∈ pySplit s, goodTok w.data := by
  intro w hw
  rcases List.mem_map.mp hw with ⟨t, ht, rfl⟩
  exact tokenize_good s.data t ht

theorem pySplit_joinSp (g : List String) (hg : g ≠ [])
    (hgood : ∀ w ∈ g, goodTok w.data) : pySplit (joinSp g) = g := by
  unfold pySplit
  rw [joinSp_data, tokenize_joinChSp (g.map String.data)
    (by simpa using hg)
    (by intro t ht; rcases List.mem_map.mp ht with ⟨w, hw, rfl⟩; exact hgood w hw)]
  rw [List.map_map]
  exact List.map_congr_left (fun w _ => strMk_data w) |>.trans (List.map_id g)

theorem pySplit_joinNL_groups (gss : List (List String)) (hne : ∀ g ∈ gss, g ≠ [])
    (hgood : ∀ g ∈ gss, ∀ w ∈ g, goodTok w.data) :
    pySplit (joinNL (gss.map joinSp)) = gss.flatten := by
  unfold pySplit
  rw [joinNL_data, List.map_map]
  have e1 : gss.map (String.data ∘ joinSp)
      = (gss.map (fun g => g.map String.data)).map joinChSp := by
    rw [List.map_map]
    exact List.map_congr_left (fun g _ => joinSp_data g)
  rw [e1, tokenize_joinChNL (gss.map (fun g => g.map String.data))
    (by intro g hg
        rcases List.mem_map.mp hg with ⟨g0, hg0, rfl⟩
        simpa using hne g0 hg0)
    (by intro g hg t ht
        rcases List.mem_map.mp hg with ⟨g0, hg0, rfl⟩
        rcases List.mem_map.mp ht with ⟨w, hw, rfl⟩
        exact hgood g0 hg0 w hw)]
  rw [← List.map_flatten, List.map_map]
  exact List.map_congr_left (fun w _ => strMk_data w) |>.trans (List.map_id gss.flatten)

theorem tokenize_space_congr (c c' : Char) (hc : pySpace c = true)
    (hc' : pySpace c' = true) (ys : List Char) :
    ∀ xs : List Char, tokenize (xs ++ c :: ys) = tokenize (xs ++ c' :: ys) := by
  intro xs
  induction xs with
  | nil =>
    show tokenize (c :: ys) = tokenize (c' :: ys)
    rw [tokenize_cons_space c ys hc, tokenize_cons_space c' ys hc']
  | cons x xs ih =>
    show tokenize (x :: (xs ++ c :: ys)) = tokenize (x :: (xs ++ c' :: ys))
    cases hx : pySpace x with
    | true =>
      rw [tokenize_cons_space x _ hx, tokenize_cons_space x _ hx]
      exact ih
    | false =>
      cases xs with
      | nil =>
        show tokenize (x :: c :: ys) = tokenize (x :: c' :: ys)
        rw [tokenize_cons_nonspace_space x c ys hx hc,
          tokenize_cons_nonspace_space x c' ys hx hc',
          tokenize_cons_space c ys hc, tokenize_cons_space c' ys hc']
      | cons x' xs' =>
        have ih' : tokenize (x' :: (xs' ++ c :: ys)) = tokenize (x' :: (xs' ++ c' :: ys)) := ih
        show tokenize (x :: x' :: (xs' ++ c :: ys)) = tokenize (x :: x' :: (xs' ++ c' :: ys))
        cases hx' : pySpace x' with
        | true =>
          rw [tokenize_cons_nonspace_space x x' _ hx hx',
            tokenize_cons_nonspace_space x x' _ hx hx', ih']
        | false =>
          rw [tokenize_cons_nonspace_nonspace x x' _ hx hx',
            tokenize_cons_nonspace_nonspace x x' _ hx hx', ih']

/-- **C3 (counterexample).**  The claim asserts that a body containing an
explicit line break always yields at least two display lines.  In the code,
`_wrap_text` starts with `text.split()`, which treats a newline exactly like a
space, so the body `"a\nb"` wraps (at a width that fits both words) to the
single line `"a b"` — one line, not two, and the break is merged away. -/
theorem c3_claim_counterexample :
    wrap_text String.length 1000 "a\nb" = ["a b"] ∧
    (wrap_text String.length 1000 "a\nb").length = 1 ∧
    ¬ 2 ≤ (wrap_text String.length 1000 "a\nb").length := by
  refine ⟨rfl, rfl, ?_⟩
  intro h
  rw [show (wrap_text String.length 1000 "a\nb").length = 1 from rfl] at h
  omega

/-- **C3 (amended).**  The text layout engine does *not* split the body on
explicit line-break characters first: `text.split()` treats a line break as
ordinary whitespace, so replacing an explicit line break by a space never
changes the wrapped lines, for every font width function and maximum width.
In particular a body containing an explicit line break can yield a single
display line. -/
theorem c3_linebreak_is_ordinary_space (f : String → ℕ) (maxW : ℕ) (s1 s2 : String) :
    wrap_text f maxW (s1 ++ "\n" ++ s2) = wrap_text f maxW (s1 ++ " " ++ s2) := by
  unfold wrap_text
  have hsplit : pySplit (s1 ++ "\n" ++ s2) = pySplit (s1 ++ " " ++ s2) := by
    unfold pySplit
    rw [strData_append, strData_append, strData_append, strData_append]
    have hnl : ("\n" : String).data = ['\n'] := rfl
    have hsp : (" " : String).data = [' '] := rfl
    rw [hnl, hsp, List.append_assoc, List.append_assoc, List.singleton_append,
      List.singleton_append, tokenize_space_congr '\n' ' ' rfl rfl s2.data s1.data]
  rw [hsplit]

/-- **C7.**  Wrapping is idempotent: joining the wrapped lines of a body with
line separators and re-wrapping at the same width, with the same font width
function, reproduces the identical line sequence.  This holds because
`_wrap_text` depends only on `text.split()`, every produced line is the
single-space join of a nonempty block of the split words, and re-splitting the
joined lines recovers exactly those words. -/
theorem c7_wrap_idempotent (f : String → ℕ) (maxW : ℕ) (text : String) :
    wrap_text f maxW (joinNL (wrap_text f maxW text)) = wrap_text f maxW text := by
  have hlines : wrap_text f maxW text = (wrapGroups f maxW (pySplit text)).map joinSp :=
    wrapFromWords_eq_groups f maxW (pySplit text)
  have hflat := wrapGroups_flatten f maxW (pySplit text)
  have hne := wrapGroups_ne_nil f maxW (pySplit text)
  have hgood : ∀ g ∈ wrapGroups f maxW (pySplit text), ∀ w ∈ g, goodTok w.data := by
    intro g hg w hw
    exact pySplit_good text w (hflat ▸ List.mem_flatten.mpr ⟨g, hg, hw⟩)
  have hsplit : pySplit (joinNL (wrap_text f maxW text)) = pySplit text := by
    rw [hlines, pySplit_joinNL_groups _ hne hgood, hflat]
  show wrapFromWords f maxW (pySplit (joinNL (wrap_text f maxW text)))
      = wrap_text f maxW text
  rw [hsplit]
  rfl

/-- **C10.**  Wrapping preserves every word and their relative order:
concatenating, in order, the whitespace-split words of all lines returned by
`_wrap_text` yields exactly the whitespace-split word sequence of the input
text — no word is introduced, dropped or reordered, and whitespace runs are
collapsed to the single spaces used to join each line. -/
theorem c10_wrap_preserves_words (f : String → ℕ) (maxW : ℕ) (text : String) :
    ((wrap_text f maxW text).map pySplit).flatten = pySplit text := by
  have hlines : wrap_text f maxW text = (wrapGroups f maxW (pySplit text)).map joinSp :=
    wrapFromWords_eq_groups f maxW (pySplit text)
  have hflat := wrapGroups_flatten f maxW (pySplit text)
  have hne := wrapGroups_ne_nil f maxW (pySplit text)
  have hgood : ∀ g ∈ wrapGroups f maxW (pySplit text), ∀ w ∈ g, goodTok w.data := by
    intro g hg w hw
    exact pySplit_good text w (hflat ▸ List.mem_flatten.mpr ⟨g, hg, hw⟩)
  rw [hlines, List.map_map]
  have hid : (wrapGroups f maxW (pySplit text)).map (pySplit ∘ joinSp)
      = wrapGroups f maxW (pySplit text) := by
    refine (List.map_congr_left ?_).trans (List.map_id _)
    intro g hg
    exact pySplit_joinSp g (hne g hg) (fun w hw => hgood g hg w hw)
  rw [hid, hflat]

/-! ### Draw-loop helper lemmas -/

theorem bodyLineOps_countP_isPaste (ux : ℕ) :
    ∀ (lines : List String) (y : ℕ),
    (bodyLineOps ux lines y).countP DrawOp.isPaste = 0 := by
  intro lines
  induction lines with
  | nil => intro y; rfl
  | cons l ls ih =>
    intro y
    simp [bodyLineOps, List.countP_cons, DrawOp.isPaste, ih]

theorem bodyLineOps_countP_isUsernameText (ux : ℕ) :
    ∀ (lines : List String) (y : ℕ),
    (bodyLineOps ux lines y).countP DrawOp.isUsernameText = 0 := by
  intro lines
  induction lines with
  | nil => intro y; rfl
  | cons l ls ih =>
    intro y
    simp [bodyLineOps, List.countP_cons, DrawOp.isUsernameText, ih]

theorem drawMessage_ok (env : AvatarEnv) (fB fU fT : String → ℕ) (m : Message)
    (y : ℕ) (h : (m.get_color_rgb).isSome = true) :
    ∃ ops, drawMessage env fB fU fT m y = Except.ok ops ∧
      ops.countP DrawOp.isPaste = 1 ∧ ops.countP DrawOp.isUsernameText = 1 := by
  rcases ho : m.get_color_rgb with - | rgb
  · rw [ho] at h
    exact absurd h (by simp)
  · refine ⟨[DrawOp.paste (get_avatar env default_avatar m.avatar_url)
        (Config.MESSAGE_PADDING, y),
      DrawOp.text (Config.MESSAGE_PADDING + Config.AVATAR_SIZE + Config.MESSAGE_SPACING, y)
        m.username FontKind.username rgb,
      DrawOp.text (Config.MESSAGE_PADDING + Config.AVATAR_SIZE + Config.MESSAGE_SPACING
          + fU m.username + 10, y + 4) m.timestamp FontKind.timestamp
        Config.TIMESTAMP_COLOR]
      ++ bodyLineOps (Config.MESSAGE_PADDING + Config.AVATAR_SIZE + Config.MESSAGE_SPACING)
          (wrap_text fB wrapWidth m.message) (y + Config.USERNAME_FONT_SIZE + 4),
      ?_, ?_, ?_⟩
    · unfold drawMessage
      rw [ho]
    · rw [List.countP_append]
      rw [bodyLineOps_countP_isPaste]
      simp [List.countP_cons, DrawOp.isPaste]
    · rw [List.countP_append]
      rw [bodyLineOps_countP_isUsernameText]
      simp [List.countP_cons, DrawOp.isUsernameText]

theorem drawLoop_ok (env : AvatarEnv) (fB fU fT : String → ℕ) :
    ∀ (ms : List Message), (∀ m ∈ ms, (m.get_color_rgb).isSome = true) →
    ∀ y : ℕ, ∃ ops, drawLoop env fB fU fT ms y = Except.ok ops ∧
      ops.countP DrawOp.isPaste = ms.length ∧
      ops.countP DrawOp.isUsernameText = ms.length := by
  intro ms
  induction ms with
  | nil => intro _ y; exact ⟨[], rfl, rfl, rfl⟩
  | cons m rest ih =>
    intro h y
    obtain ⟨ops1, h1, hp1, hu1⟩ :=
      drawMessage_ok env fB fU fT m y (h m (by simp))
    obtain ⟨ops2, h2, hp2, hu2⟩ :=
      ih (fun x hx => h x (List.mem_cons_of_mem m hx)) (y + messageHeight fB m)
    refine ⟨ops1 ++ ops2, ?_, ?_, ?_⟩
    · unfold drawLoop
      rw [h1, h2]
    · rw [List.countP_append, hp1, hp2]
      simp only [List.length_cons]
      omega
    · rw [List.countP_append, hu1, hu2]
      simp only [List.length_cons]
      omega

/-! ## Claim theorems -/

/-- **C1 (counterexample).**  The claim asserts that every request whose
messages all have a non-empty username, a body within the limit and a count
within the limit renders successfully.  The message below satisfies all three
conditions (and passes `Message.validate`), yet `generate` raises: its color
`"#gggggg"` makes `int(color[0:2], 16)` in `get_color_rgb` raise
`ValueError`, which propagates out of `generate`. -/
theorem c1_claim_counterexample :
    (∀ m ∈ [msBadColor], m.username ≠ "" ∧
      m.message.length ≤ Config.MAX_MESSAGE_LENGTH) ∧
    ([msBadColor] : List Message).length ≤ Config.MAX_MESSAGES ∧
    (msBadColor.validate).2 = none ∧
    generate envNone String.length String.length String.length [msBadColor]
      = Except.error "invalid literal for int() with base 16" := by
  refine ⟨by decide, by decide, ?_, ?_⟩
  · decide
  · rfl

/-- **C1 (amended).**  For every request whose messages are all valid
(non-empty username, body length at most the configured maximum, count at
most the configured maximum) *and whose colors parse as hexadecimal RGB*,
`generate` succeeds; the canvas raster has the configured width
`MAX_WIDTH`, positive height, and its encoding is non-empty. -/
theorem c1_render_ok (env : AvatarEnv) (fB fU fT : String → ℕ) (ms : List Message)
    (hvalid : ∀ m ∈ ms, m.username ≠ "" ∧
      m.message.length ≤ Config.MAX_MESSAGE_LENGTH ∧ (m.get_color_rgb).isSome = true)
    (hcount : ms.length ≤ Config.MAX_MESSAGES) :
    ∃ r, generate env fB fU fT ms = Except.ok r ∧
      r.canvas.width = Config.MAX_WIDTH ∧
      0 < r.canvas.height ∧
      encodeImg r.canvas ≠ [] := by
  obtain ⟨ops, hops, -, -⟩ :=
    drawLoop_ok env fB fU fT ms (fun m hm => (hvalid m hm).2.2) Config.MESSAGE_PADDING
  have hgen : generate env fB fU fT ms
      = Except.ok
          { canvas := imageNew
              (Config.MAX_WIDTH,
               Config.MESSAGE_PADDING + (ms.map (messageHeight fB)).sum)
              Config.BACKGROUND_COLOR,
            ops := ops } := by
    unfold generate
    rw [hops]
  refine ⟨_, hgen, rfl, ?_, ?_⟩
  · show 0 < Config.MESSAGE_PADDING + (ms.map (messageHeight fB)).sum
    have : Config.MESSAGE_PADDING = 20 := rfl
    omega
  · intro hcontra
    exact List.cons_ne_nil _ _ hcontra

/-- Witness for `c1_render_ok` at a concrete valid one-message request. -/
theorem c1_render_ok_witness :
    ((∀ m ∈ [msGood], m.username ≠ "" ∧
        m.message.length ≤ Config.MAX_MESSAGE_LENGTH ∧
        (m.get_color_rgb).isSome = true) ∧
      ([msGood] : List Message).length ≤ Config.MAX_MESSAGES) ∧
    (∃ r, generate envNone String.length String.length String.length [msGood]
        = Except.ok r ∧
      r.canvas.width = Config.MAX_WIDTH ∧
      0 < r.canvas.height ∧
      encodeImg r.canvas ≠ []) :=
  ⟨⟨by decide, by decide⟩,
    c1_render_ok envNone String.length String.length String.length [msGood]
      (by decide) (by decide)⟩

/-- **C2 (counterexample).**  The claim asserts that the second of two
consecutive same-username messages is rendered as a group continuation with
no avatar tile and no username header and a smaller cursor advance.  In the
code there is no grouping state at all: for the two-message same-author
request below, the draw pass emits two avatar pastes and two username text
draws (not one), and both messages advance the cursor by the identical full
header-block formula (50 pixels here), so no smaller continuation spacing
exists. -/
theorem c2_claim_counterexample :
    msgsSameUser.map Message.username = ["A", "A"] ∧
    renderCounts
        (generate envNone String.length String.length String.length msgsSameUser)
      = some (2, 2) ∧
    (2 : ℕ) ≠ 1 ∧
    msgsSameUser.map (messageHeight String.length) = [50, 50] := by
  refine ⟨rfl, rfl, by decide, rfl⟩

/-- **C2 (amended).**  The code has no author-grouping: whenever `generate`
succeeds, every message — whether or not its username equals its
predecessor's — contributes exactly one avatar paste and exactly one username
header draw, and the canvas height is the padding plus the sum of the
identical per-message height formula over all messages (no smaller
continuation spacing is ever used). -/
theorem c2_uniform_rendering (env : AvatarEnv) (fB fU fT : String → ℕ)
    (ms : List Message) (hc : ∀ m ∈ ms, (m.get_color_rgb).isSome = true) :
    ∃ r, generate env fB fU fT ms = Except.ok r ∧
      r.ops.countP DrawOp.isPaste = ms.length ∧
      r.ops.countP DrawOp.isUsernameText = ms.length ∧
      r.canvas.height = Config.MESSAGE_PADDING + (ms.map (messageHeight fB)).sum := by
  obtain ⟨ops, hops, hp, hu⟩ := drawLoop_ok env fB fU fT ms hc Config.MESSAGE_PADDING
  have hgen : generate env fB fU fT ms
      = Except.ok
          { canvas := imageNew
              (Config.MAX_WIDTH,
               Config.MESSAGE_PADDING + (ms.map (messageHeight fB)).sum)
              Config.BACKGROUND_COLOR,
            ops := ops } := by
    unfold generate
    rw [hops]
  exact ⟨_, hgen, hp, hu, rfl⟩

/-- Witness for `c2_uniform_rendering` at the two-message same-author
request. -/
theorem c2_uniform_rendering_witness :
    (∀ m ∈ msgsSameUser, (m.get_color_rgb).isSome = true) ∧
    (∃ r, generate envNone String.length String.length String.length msgsSameUser
        = Except.ok r ∧
      r.ops.countP DrawOp.isPaste = msgsSameUser.length ∧
      r.ops.countP DrawOp.isUsernameText = msgsSameUser.length ∧
      r.canvas.height = Config.MESSAGE_PADDING
        + (msgsSameUser.map (messageHeight String.length)).sum) :=
  ⟨by decide,
    c2_uniform_rendering envNone String.length String.length String.length
      msgsSameUser (by decide)⟩

/-- **C4 (counterexample).**  The claim asserts that wrapping an empty body
yields exactly one empty display line and that the height formula reserves at
least one line height for it.  In the code `"".split()` is `[]`, the loop
never runs and `_wrap_text` returns `[]` — zero lines, not `[""]` — and the
height formula contributes `16 + 0*(14+4) + 16 = 32`, strictly less than the
`50` that reserving one line height would give. -/
theorem c4_claim_counterexample :
    wrap_text String.length wrapWidth "" = [] ∧
    wrap_text String.length wrapWidth "" ≠ [""] ∧
    messageHeight String.length msEmpty = 32 ∧
    32 < Config.USERNAME_FONT_SIZE + 1 * (Config.FONT_SIZE + 4)
        + Config.MESSAGE_SPACING := by
  exact ⟨rfl, by decide, rfl, by decide⟩

/-- **C4 (amended).**  For every font width function and maximum width,
wrapping an empty body yields zero display lines (not one empty line), and
the per-message height formula for an empty-body message reserves only the
username height plus the message spacing — no body line height at all. -/
theorem c4_empty_body (f : String → ℕ) (maxW : ℕ) (m : Message)
    (hm : m.message = "") :
    wrap_text f maxW "" = [] ∧
    messageHeight f m = Config.USERNAME_FONT_SIZE + Config.MESSAGE_SPACING := by
  constructor
  · rfl
  · unfold messageHeight
    rw [hm]
    rfl

/-- Witness for `c4_empty_body` at the concrete empty-body message. -/
theorem c4_empty_body_witness :
    msEmpty.message = "" ∧
    (wrap_text String.length wrapWidth "" = [] ∧
      messageHeight String.length msEmpty
        = Config.USERNAME_FONT_SIZE + Config.MESSAGE_SPACING) :=
  ⟨rfl, c4_empty_body String.length wrapWidth msEmpty rfl⟩

/-- **C5.**  The avatar resolver never lets a failure escape: it is a total
function (the `except Exception` wrapper in `_get_avatar` converts the raising
`try` body into the default avatar), and for every failing URL — empty URL,
raising fetch, non-200 HTTP status, or undecodable body — the returned tile
*is* the deterministic placeholder, so its pixels equal the placeholder's
pixels exactly. -/
theorem c5_avatar_fallback (env : AvatarEnv) (url : String)
    (h : avatarFetchFails env url = true) :
    get_avatar env default_avatar url = default_avatar ∧
    ∀ p : ℕ × ℕ, (get_avatar env default_avatar url).px p = default_avatar.px p := by
  have hmain : get_avatar env default_avatar url = default_avatar := by
    unfold get_avatar get_avatar_body
    by_cases hu : url = ""
    · rw [if_pos hu]
    · rw [if_neg hu]
      unfold avatarFetchFails at h
      rw [Bool.or_eq_true] at h
      rcases h with h | h
      · exact absurd (of_decide_eq_true h) hu
      · cases hf : env.fetch url with
        | raises => rfl
        | response status data =>
          rw [hf] at h
          have h' : (decide (status ≠ 200) || (env.decode data).isNone) = true := h
          rw [Bool.or_eq_true] at h'
          by_cases hs : status = 200
          · have hdec : env.decode data = none := by
              rcases h' with h'' | h''
              · exact absurd (of_decide_eq_true h'') (by simp [hs])
              · exact Option.isNone_iff_eq_none.mp h''
            simp [hs, hdec]
          · simp [hs]
  exact ⟨hmain, fun p => by rw [hmain]⟩

/-- Witness for `c5_avatar_fallback` with a fetch that raises (unreachable
host). -/
theorem c5_avatar_fallback_witness :
    avatarFetchFails envNone "http://example.com/a.png" = true ∧
    (get_avatar envNone default_avatar "http://example.com/a.png" = default_avatar ∧
      ∀ p : ℕ × ℕ, (get_avatar envNone default_avatar "http://example.com/a.png").px p
        = default_avatar.px p) :=
  ⟨rfl, c5_avatar_fallback envNone "http://example.com/a.png" rfl⟩

/-- **C6 (counterexample).**  The claim asserts that a successfully fetched
avatar is center-cropped to square and given a circular alpha mask so that
every pixel outside the circle is fully transparent.  The code applies no
mask at all: it converts to `RGB` (a mode with no transparency) and resizes.
For the successfully decoded non-square source `imgNonSquare`, the corner
pixel `(0,0)` of the resulting tile lies outside the inscribed circle yet has
alpha 255, refuting the claimed mask property. -/
theorem c6_claim_counterexample : ¬ maskedOutsideCircle tileNonSquare Config.AVATAR_SIZE := by
  intro h
  have h0 := h 0 0 (by decide) (by decide) (by decide)
  have h255 : tileNonSquare.alphaAt (0, 0) = 255 := rfl
  rw [h0] at h255
  exact absurd h255 (by decide)

/-- **C6 (amended).**  For every successfully fetched (HTTP 200) and decoded
avatar image, `_get_avatar` converts it to `RGB` and Lanczos-resizes it
directly to the configured tile size: no center-crop of non-square sources
and no circular alpha mask is applied, so the resulting tile is a fully
opaque `RGB` raster of the configured avatar size. -/
theorem c6_avatar_processing (env : AvatarEnv) (url : String) (d : List ℕ)
    (img : PILImage) (hu : url ≠ "")
    (hf : env.fetch url = FetchOutcome.response 200 d)
    (hd : env.decode d = some img) :
    get_avatar env default_avatar url
        = (img.convertRGB).resizeLanczos (Config.AVATAR_SIZE, Config.AVATAR_SIZE) ∧
    (get_avatar env default_avatar url).mode = PILMode.RGB ∧
    (get_avatar env default_avatar url).width = Config.AVATAR_SIZE ∧
    (get_avatar env default_avatar url).height = Config.AVATAR_SIZE ∧
    ∀ p : ℕ × ℕ, (get_avatar env default_avatar url).alphaAt p = 255 := by
  have hmain : get_avatar env default_avatar url
      = (img.convertRGB).resizeLanczos (Config.AVATAR_SIZE, Config.AVATAR_SIZE) := by
    unfold get_avatar get_avatar_body
    rw [if_neg hu, hf]
    simp [hd]
  refine ⟨hmain, ?_, ?_, ?_, ?_⟩
  · rw [hmain]; rfl
  · rw [hmain]; rfl
  · rw [hmain]; rfl
  · intro p; rw [hmain]; rfl

/-- Witness for `c6_avatar_processing` at the concrete non-square avatar. -/
theorem c6_avatar_processing_witness :
    ("http://cdn.example.com/av.png" : String) ≠ "" ∧
    envSquareTest.fetch "http://cdn.example.com/av.png" = FetchOutcome.response 200 [] ∧
    envSquareTest.decode [] = some imgNonSquare ∧
    (get_avatar envSquareTest default_avatar "http://cdn.example.com/av.png"
        = (imgNonSquare.convertRGB).resizeLanczos
            (Config.AVATAR_SIZE, Config.AVATAR_SIZE) ∧
      (get_avatar envSquareTest default_avatar "http://cdn.example.com/av.png").mode
        = PILMode.RGB ∧
      (get_avatar envSquareTest default_avatar "http://cdn.example.com/av.png").width
        = Config.AVATAR_SIZE ∧
      (get_avatar envSquareTest default_avatar "http://cdn.example.com/av.png").height
        = Config.AVATAR_SIZE ∧
      ∀ p : ℕ × ℕ,
        (get_avatar envSquareTest default_avatar
          "http://cdn.example.com/av.png").alphaAt p = 255) :=
  ⟨by decide, rfl, rfl,
    c6_avatar_processing envSquareTest "http://cdn.example.com/av.png" [] imgNonSquare
      (by decide) rfl rfl⟩

/-- **C8.**  A request whose message count exceeds the configured maximum is
rejected with the too-many-messages error regardless of the content of the
raw records — in particular even when every record would fail per-message
validation — showing the count check runs before any per-message validation;
and the rejected path returns before `generate` is reached, which is the only
place the canvas is allocated. -/
theorem c8_too_many_rejected (env : AvatarEnv) (fB fU fT : String → ℕ)
    (now : String) (raws : List RawMsg) (h : raws.length > Config.MAX_MESSAGES) :
    generate_image env fB fU fT now (some raws)
      = HandlerResult.badRequest
          ("Too many messages. Maximum allowed: " ++ toString Config.MAX_MESSAGES) := by
  simp only [generate_image]
  rw [if_pos h]

/-- Witness for `c8_too_many_rejected`: 51 records that are each individually
invalid (missing both required fields) are still rejected with the
too-many-messages error, not a per-record validation error. -/
theorem c8_too_many_rejected_witness :
    (List.replicate 51 rawEmpty).length > Config.MAX_MESSAGES ∧
    generate_image envNone String.length String.length String.length "12:00"
        (some (List.replicate 51 rawEmpty))
      = HandlerResult.badRequest
          ("Too many messages. Maximum allowed: " ++ toString Config.MAX_MESSAGES) :=
  ⟨by decide,
    c8_too_many_rejected envNone String.length String.length String.length "12:00"
      (List.replicate 51 rawEmpty) (by decide)⟩

/-- **C9.**  `Message.validate` mutates at most the `color` field (prepending
`'#'` when missing): `username`, `message`, `timestamp` and `avatar_url` are
unchanged by every call, the final color is either the original or the
original prefixed with `'#'`, and whenever `validate` raises the entire
message — color included — is left unchanged (both checks precede the
mutation). -/
theorem c9_validate_frame (m : Message) :
    (m.validate).1.username = m.username ∧
    (m.validate).1.message = m.message ∧
    (m.validate).1.timestamp = m.timestamp ∧
    (m.validate).1.avatar_url = m.avatar_url ∧
    ((m.validate).1.color = m.color ∨ (m.validate).1.color = "#" ++ m.color) ∧
    ((m.validate).2.isSome = true → (m.validate).1 = m) := by
  unfold Message.validate
  by_cases h1 : m.message.length > Config.MAX_MESSAGE_LENGTH
  · rw [if_pos h1]
    exact ⟨rfl, rfl, rfl, rfl, Or.inl rfl, fun _ => rfl⟩
  · rw [if_neg h1]
    by_cases h2 : m.username = ""
    · rw [if_pos h2]
      exact ⟨rfl, rfl, rfl, rfl, Or.inl rfl, fun _ => rfl⟩
    · rw [if_neg h2]
      by_cases h3 : ¬ pyStartsWithHash m.color
      · rw [if_pos h3]
        exact ⟨rfl, rfl, rfl, rfl, Or.inr rfl, fun hs => Bool.noConfusion hs⟩
      · rw [if_neg h3]
        exact ⟨rfl, rfl, rfl, rfl, Or.inl rfl, fun hs => Bool.noConfusion hs⟩

/-- Witness for `c9_validate_frame` at a message on which `validate` raises
(empty username) while the color lacks its `'#'`: nothing, including the
color, changes. -/
theorem c9_validate_frame_witness :
    (msRaise.validate).1.username = msRaise.username ∧
    (msRaise.validate).1.message = msRaise.message ∧
    (msRaise.validate).1.timestamp = msRaise.timestamp ∧
    (msRaise.validate).1.avatar_url = msRaise.avatar_url ∧
    ((msRaise.validate).1.color = msRaise.color ∨
      (msRaise.validate).1.color = "#" ++ msRaise.color) ∧
    ((msRaise.validate).2.isSome = true → (msRaise.validate).1 = msRaise) :=
  c9_validate_frame msRaise

end DiscordAPI
